import Mathlib

/-!
Shallow embedding of the `detection_test` repository (src/src/main.rs and
src/src/audio.rs) and proofs of the specification claims about it.

The repository implements a streaming audio detection pipeline:
windowing of a sample stream into 8192-sample windows, a 20-entry
circular detection history with a rolling-sum threshold, and an ALSA
capture loop writing a WAV file.
-/

namespace Detection

/-! ## Window accumulator (main.rs, `gen_csv` lines 96-112 and `test` lines 122-132)

The Rust code pushes samples one at a time into a `Vec` and, whenever the
vector reaches 8192 elements, hands the full vector to the next stage and
clears it.  We model the accumulator state as the list of emitted windows
together with the partially filled buffer. -/

/-- One iteration of the sample loop: push sample `s` into the buffer; if the
buffer reaches `W` samples, emit it as a completed window and clear it
(`samples.push(s); if samples.len() == W { emit; samples.clear() }`). -/
def pushSample (W : Nat) (st : List (List Int) × List Int) (s : Int) :
    List (List Int) × List Int :=
  let buf := st.2 ++ [s]
  if buf.length = W then (st.1 ++ [buf], []) else (st.1, buf)

/-- Run the sample loop over a whole input stream, starting from an empty
buffer; returns the emitted windows and the trailing partial buffer. -/
def accumulate (W : Nat) (input : List Int) : List (List Int) × List Int :=
  input.foldl (pushSample W) ([], [])

/-- The windows emitted by the accumulator, in emission order. -/
def windows (W : Nat) (input : List Int) : List (List Int) :=
  (accumulate W input).1

/-! ## Decision smoother (main.rs, `test` lines 118, 144, 155)

`let mut detections: CircularBuffer<20, u8> = CircularBuffer::from([0; 20]);`
pre-seeds the history full with 20 zeros.  `detections.push_back(pred)` on a
full buffer evicts the oldest (front) entry.  The detection state is
`detections.iter().sum::<u8>() > 1`, a `u8` (mod 256) sum. -/

/-- The detection history at program start: 20 neutral zero labels. -/
def histInit : List Nat :=
  List.replicate 20 0

/-- `CircularBuffer::<20, u8>::push_back`: append at the back, evicting the
front element when the buffer is at capacity 20. -/
def observe (h : List Nat) (l : Nat) : List Nat :=
  if h.length = 20 then h.drop 1 ++ [l] else h ++ [l]

/-- The history after observing a label sequence `ls`, starting from the
pre-seeded initial history. -/
def histAfter (ls : List Nat) : List Nat :=
  ls.foldl observe histInit

/-- `detections.iter().sum::<u8>()`: a left fold with `u8` (mod 256)
wrapping addition. -/
def detectionSum (h : List Nat) : Nat :=
  h.foldl (fun a b => (a + b) % 256) 0

/-- `detections.iter().sum::<u8>() > 1`: the derived detection state. -/
def droneState (h : List Nat) : Bool :=
  decide (1 < detectionSum h)

/-- The rolling sum the spec speaks of: the sum of the 20 most recent entries
of the label stream, pre-seeded with 20 zeros. -/
def last20Sum (p : List Nat) : Nat :=
  ((List.replicate 20 0 ++ p).drop p.length).sum

/-! ## Evaluation mode (main.rs, `test` lines 115-167)

The evaluation loop feeds each completed window to the ONNX model.  A
failed inference run (`let Ok(ref mut outputs) = run else { continue; }`)
skips the window before the history push and before either counter is
touched.  We abstract the model invocation as a function from a window to
an optional predicted label (`none` = inference error). -/

/-- The mutable state of the evaluation loop: the detection history and the
`predictions` / `correct` counters. -/
structure EvalState where
  detections : List Nat
  predictions : Nat
  correct : Nat
deriving DecidableEq, Repr

/-- The evaluation state at loop entry: pre-seeded history, zero counters. -/
def evalInit : EvalState :=
  ⟨histInit, 0, 0⟩

/-- The body of the evaluation loop for one completed window `w`.  When the
inference call fails the state is returned unchanged (`continue`); otherwise
the predicted label is pushed into the history, the detection state is
recomputed, `predictions` is incremented and `correct` is incremented when
the detection state matches the ground-truth `drone` flag. -/
def evalStep (drone : Bool) (infer : List Int → Option Nat) (st : EvalState)
    (w : List Int) : EvalState :=
  match infer w with
  | none => st
  | some pred =>
      let d := observe st.detections pred
      { detections := d
        predictions := st.predictions + 1
        correct := if droneState d = drone then st.correct + 1 else st.correct }

/-- Run the evaluation loop over a list of completed windows. -/
def evalRun (drone : Bool) (infer : List Int → Option Nat)
    (ws : List (List Int)) : EvalState :=
  ws.foldl (evalStep drone infer) evalInit

/-- The whole `test` subcommand on an input sample stream: window the stream
into 8192-sample windows and run the evaluation loop over them. -/
def testRun (drone : Bool) (infer : List Int → Option Nat)
    (input : List Int) : EvalState :=
  evalRun drone infer (windows 8192 input)

/-- The numerator and denominator of the final report
`correct as f32 / predictions as f32` (main.rs line 166).  The division is
performed unconditionally; there is no branch guarding `predictions = 0`. -/
def accuracyRatio (st : EvalState) : Nat × Nat :=
  (st.correct, st.predictions)

/-! ## Capture device (audio.rs)

`CaptureDevice` stores the requested device name, channel count, sample
rate and sample format; `new` is a plain constructor that never fails.
`read` first calls `init_device` (PCM::new opens the device, hardware
parameters are negotiated, the stream is prepared and started), only then
matches on the format — `S32LE | S32BE` obtains the i32 I/O handle, any
other format returns `Error::new("Format unimplemented", 0)` — then creates
the WAV writer and enters the capture loop. -/

/-- The ALSA sample formats this embedding distinguishes (alsa::pcm::Format).
Only the fixed-point 32-bit family matters to `read`; every other format is
collapsed into representative constructors. -/
inductive Format where
  | s32le
  | s32be
  | s16le
  | s16be
  | s8
  | floatle
deriving DecidableEq, Repr

/-- `CaptureDevice` (audio.rs lines 8-13). -/
structure CaptureDevice where
  device_name : String
  channels : Nat
  samplerate : Nat
  format : Format
deriving DecidableEq, Repr

/-- `CaptureDevice::new` (audio.rs lines 16-23): a total constructor, it
performs no validation and never fails. -/
def CaptureDevice.new (device_name : String) (channels samplerate : Nat)
    (format : Format) : CaptureDevice :=
  ⟨device_name, channels, samplerate, format⟩

/-- The capture device constructed by `record_audio` (main.rs line 80). -/
def recordDevice : CaptureDevice :=
  CaptureDevice.new "hw:CARD=sndrpigooglevoi,DEV=0" 2 48000 Format.s32le

/-- An ALSA error: the embedding keeps only the errno, which is all `read`
inspects (`err.errno() != 11`). -/
structure AlsaError where
  errno : Nat
deriving DecidableEq, Repr

/-- The POSIX errno for an interrupted system call (EINTR).  Not a constant
of the repository: the source only mentions the literal 11, which is EAGAIN
("resource temporarily unavailable"), not EINTR. -/
def EINTR : Nat := 4

/-- Outcome of one blocking `io.readi(&mut buf)` call: either `s` frames
were read, whose `s * channels` interleaved samples we carry directly, or
an ALSA error occurred. -/
inductive ReadOutcome where
  | ok (data : List Int)
  | err (e : AlsaError)
deriving DecidableEq, Repr

/-- The environment a capture session runs against: the result of device
initialization, the outcome of the i-th read, the result of the i-th
recovery attempt, and the value of the shared `running` flag as sampled by
the check at the top of the i-th loop iteration. -/
structure DeviceEnv where
  initResult : Except AlsaError Unit
  reads : Nat → ReadOutcome
  recover : Nat → AlsaError → Except AlsaError Unit
  flag : Nat → Bool

/-- How a simulated capture loop ended. -/
inductive LoopExit where
  | stopped
  | fatal (e : AlsaError)
  | outOfFuel
deriving DecidableEq, Repr

/-- Observable result of the capture loop: how it exited, the samples
written to the WAV writer in order, the number of `readi` calls issued and
the number of `try_recover` invocations. -/
structure LoopResult where
  exitKind : LoopExit
  written : List Int
  reads : Nat
  recovers : Nat
deriving DecidableEq, Repr

/-- The capture loop of `CaptureDevice::read` (audio.rs lines 63-79),
simulated for at most `fuel` iterations starting at iteration `i` with
samples `acc` already written, `r` reads and `rc` recoveries already
performed.  Each iteration first reads the `running` flag (and exits with
`Ok(())` when it is unset), then issues one blocking read.  A successful
read appends its samples to the writer.  An error with errno 11 is ignored
and the loop continues; any other error invokes `pcm.try_recover`, whose
own failure is propagated out of the loop (`?`). -/
def readLoop (env : DeviceEnv) :
    Nat → Nat → List Int → Nat → Nat → LoopResult
  | 0, _, acc, r, rc => ⟨LoopExit.outOfFuel, acc, r, rc⟩
  | fuel + 1, i, acc, r, rc =>
    if env.flag i then
      match env.reads i with
      | ReadOutcome.ok data => readLoop env fuel (i + 1) (acc ++ data) (r + 1) rc
      | ReadOutcome.err e =>
          if e.errno = 11 then
            readLoop env fuel (i + 1) acc (r + 1) rc
          else
            match env.recover i e with
            | Except.ok _ => readLoop env fuel (i + 1) acc (r + 1) (rc + 1)
            | Except.error e2 => ⟨LoopExit.fatal e2, acc, r + 1, rc + 1⟩
    else ⟨LoopExit.stopped, acc, r, rc⟩

/-- hound's `SampleFormat`: integer or IEEE float PCM. -/
inductive SampleFormat where
  | int
  | float
deriving DecidableEq, Repr

/-- hound's `WavSpec`: the WAV header fields (audio.rs lines 53-58). -/
structure WavSpec where
  channels : Nat
  sample_rate : Nat
  bits_per_sample : Nat
  sample_format : SampleFormat
deriving DecidableEq, Repr

/-- The WAV header `read` writes: the session's channel count (cast
`as u16`, so reduced mod 2^16), the session's sample rate, 32 bits per
sample, integer samples. -/
def wavSpecOf (dev : CaptureDevice) : WavSpec :=
  ⟨dev.channels % 65536, dev.samplerate, 32, SampleFormat.int⟩

/-- The output file as finalized by the WAV writer: its header and the
samples written, in order. -/
structure WavFile where
  spec : WavSpec
  samples : List Int
deriving DecidableEq, Repr

/-- Whether `read` can obtain an i32 I/O handle for the format
(`Format::S32LE | Format::S32BE => pcm.io_i32()`). -/
def Format.supported : Format → Bool
  | Format.s32le => true
  | Format.s32be => true
  | _ => false

/-- `CaptureDevice::read` (audio.rs lines 42-81): initialize the device
(propagating an initialization error), reject any non-32-bit-fixed-point
format with the "Format unimplemented" error, create the output file, and
run the capture loop.  The result pairs the returned `Result` with the
output file (`none` when `read` returned before the file was created; the
writer is dropped — and the header finalized — on every later exit path). -/
def CaptureDevice.read (dev : CaptureDevice) (env : DeviceEnv) (fuel : Nat) :
    Except AlsaError Unit × Option WavFile :=
  match env.initResult with
  | Except.error e => (Except.error e, none)
  | Except.ok _ =>
      if dev.format.supported then
        let res := readLoop env fuel 0 [] 0 0
        match res.exitKind with
        | LoopExit.fatal e => (Except.error e, some ⟨wavSpecOf dev, res.written⟩)
        | _ => (Except.ok (), some ⟨wavSpecOf dev, res.written⟩)
      else (Except.error ⟨0⟩, none)

/-- Observable events of a `read` call, in order of occurrence. -/
inductive Event where
  | deviceOpened
  | streamStarted
  | formatRejected
  | fileCreated
  | readIssued
deriving DecidableEq, Repr

/-- The event trace of `CaptureDevice::read`: `init_device` opens the
device (`PCM::new`) and starts the stream before `read` ever looks at the
format; the format check happens next, and the output file is created and
reads are issued only for a supported format. -/
def CaptureDevice.readTrace (dev : CaptureDevice) (env : DeviceEnv)
    (fuel : Nat) : List Event :=
  match env.initResult with
  | Except.error _ => []
  | Except.ok _ =>
      if dev.format.supported then
        [Event.deviceOpened, Event.streamStarted, Event.fileCreated] ++
          List.replicate (readLoop env fuel 0 [] 0 0).reads Event.readIssued
      else [Event.deviceOpened, Event.streamStarted, Event.formatRejected]

/-! ## Concrete environments and devices used to instantiate the theorems -/

/-- An environment whose device initializes, whose reads all succeed with
two samples, whose recovery always succeeds, and whose stop flag is set
once three loop iterations have started. -/
def stopAfter3Env : DeviceEnv :=
  ⟨Except.ok (), fun _ => ReadOutcome.ok [1, 2], fun _ _ => Except.ok (),
    fun i => decide (i < 3)⟩

/-- An environment whose stop flag is unset from the very first check. -/
def stoppedEnv : DeviceEnv :=
  ⟨Except.ok (), fun _ => ReadOutcome.ok [], fun _ _ => Except.ok (),
    fun _ => false⟩

/-- An environment whose every read fails with EINTR (errno 4, interrupted
system call) and whose recovery attempts fail with errno 5. -/
def eintrEnv : DeviceEnv :=
  ⟨Except.ok (), fun _ => ReadOutcome.err ⟨EINTR⟩,
    fun _ _ => Except.error ⟨5⟩, fun _ => true⟩

/-- An environment whose every read fails with errno 11 (EAGAIN). -/
def eagainEnv : DeviceEnv :=
  ⟨Except.ok (), fun _ => ReadOutcome.err ⟨11⟩, fun _ _ => Except.ok (),
    fun _ => true⟩

/-- A capture device configured with a 16-bit sample format, which `read`
does not support. -/
def badFormatDevice : CaptureDevice :=
  CaptureDevice.new "hw:CARD=sndrpigooglevoi,DEV=0" 2 48000 Format.s16le

/-! ## Windowing lemmas -/

lemma accumulate_inv (W : Nat) (hW : 0 < W) :
    ∀ (l : List Int) (ws : List (List Int)) (buf : List Int),
      (∀ w ∈ ws, w.length = W) → buf.length < W →
      (∀ w ∈ (l.foldl (pushSample W) (ws, buf)).1, w.length = W) ∧
      (l.foldl (pushSample W) (ws, buf)).2.length < W ∧
      (l.foldl (pushSample W) (ws, buf)).1.flatten ++ (l.foldl (pushSample W) (ws, buf)).2
        = ws.flatten ++ (buf ++ l) := by
  intro l
  induction l with
  | nil =>
      intro ws buf hws hbuf
      simpa using ⟨hws, hbuf⟩
  | cons s l ih =>
      intro ws buf hws hbuf
      simp only [List.foldl_cons]
      by_cases hfull : (buf ++ [s]).length = W
      · have hstep : pushSample W (ws, buf) s = (ws ++ [buf ++ [s]], []) := by
          simp [pushSample, hfull]
        rw [hstep]
        have hws2 : ∀ w ∈ ws ++ [buf ++ [s]], w.length = W := by
          intro w hw
          rcases List.mem_append.mp hw with h | h
          · exact hws w h
          · simp only [List.mem_singleton] at h
            subst h; exact hfull
        obtain ⟨h1, h2, h3⟩ := ih (ws ++ [buf ++ [s]]) [] hws2 (by simpa using hW)
        refine ⟨h1, h2, ?_⟩
        rw [h3]
        simp [List.append_assoc]
      · have hfull2 : ¬ buf.length + 1 = W := by
          simpa using hfull
        have hstep : pushSample W (ws, buf) s = (ws, buf ++ [s]) := by
          simp [pushSample, hfull2]
        rw [hstep]
        have hlen : (buf ++ [s]).length < W := by
          simp only [List.length_append, List.length_singleton] at hfull ⊢
          omega
        obtain ⟨h1, h2, h3⟩ := ih ws (buf ++ [s]) hws hlen
        refine ⟨h1, h2, ?_⟩
        rw [h3]
        simp [List.append_assoc]

lemma accumulate_spec (W : Nat) (hW : 0 < W) (input : List Int) :
    (∀ w ∈ windows W input, w.length = W) ∧
    (accumulate W input).2.length < W ∧
    (windows W input).flatten ++ (accumulate W input).2 = input := by
  obtain ⟨h1, h2, h3⟩ :=
    accumulate_inv W hW input [] [] (by simp) (by simpa using hW)
  exact ⟨h1, h2, by simpa using h3⟩

lemma windows_join_length (W : Nat) (hW : 0 < W) (input : List Int) :
    ((windows W input).flatten).length = W * (windows W input).length := by
  obtain ⟨h1, -, -⟩ := accumulate_spec W hW input
  rw [List.length_flatten]
  calc ((windows W input).map List.length).sum
      = ((windows W input).map (fun _ => W)).sum := by
        apply congrArg
        exact List.map_congr_left fun w hw => h1 w hw
    _ = W * (windows W input).length := by
        rw [List.map_const']
        simp [List.sum_replicate, Nat.mul_comm]

/-! ## Decision smoother lemmas -/

lemma observe_length (h : List Nat) (l : Nat) (hh : h.length = 20) :
    (observe h l).length = 20 := by
  simp [observe, hh]

lemma observe_full (h : List Nat) (l : Nat) (hh : h.length = 20) :
    observe h l = h.drop 1 ++ [l] := by
  simp [observe, hh]

lemma histAfter_eq (ls : List Nat) :
    histAfter ls = (List.replicate 20 0 ++ ls).drop ls.length := by
  induction ls using List.reverseRecOn with
  | nil => simp [histAfter, histInit]
  | append_singleton q l ih =>
      have hq : (histAfter q).length = 20 := by
        rw [ih]
        simp
        omega
      have hstep : histAfter (q ++ [l]) = observe (histAfter q) l := by
        simp [histAfter, List.foldl_append]
      rw [hstep, observe_full _ _ hq, ih]
      rw [List.drop_drop]
      have hle : q.length + 1 ≤ (List.replicate 20 0 ++ q).length := by
        simp
      rw [← List.drop_append_of_le_length hle]
      simp [List.append_assoc, Nat.add_comm]

lemma histAfter_length (ls : List Nat) : (histAfter ls).length = 20 := by
  rw [histAfter_eq]
  simp
  omega

lemma histAfter_sum (ls : List Nat) : (histAfter ls).sum = last20Sum ls := by
  rw [histAfter_eq, last20Sum]

lemma histAfter_mem_le (ls : List Nat) (hls : ∀ l ∈ ls, l ≤ 1) :
    ∀ x ∈ histAfter ls, x ≤ 1 := by
  intro x hx
  rw [histAfter_eq] at hx
  have hx2 : x ∈ List.replicate 20 0 ++ ls := List.mem_of_mem_drop hx
  rcases List.mem_append.mp hx2 with h | h
  · have := List.eq_of_mem_replicate h
    omega
  · exact hls x h

lemma detectionSum_go (h : List Nat) :
    ∀ a, a + h.sum < 256 →
      h.foldl (fun a b => (a + b) % 256) a = a + h.sum := by
  induction h with
  | nil => intro a _; simp
  | cons b t ih =>
      intro a hb
      simp only [List.sum_cons] at hb
      have hab : (a + b) % 256 = a + b := Nat.mod_eq_of_lt (by omega)
      simp only [List.foldl_cons, hab]
      rw [ih (a + b) (by omega)]
      simp [List.sum_cons]
      omega

lemma detectionSum_eq_sum (h : List Nat) (hs : h.sum < 256) :
    detectionSum h = h.sum := by
  have := detectionSum_go h 0 (by omega)
  simpa [detectionSum] using this

lemma sum_le_of_le_one (h : List Nat) (hb : ∀ x ∈ h, x ≤ 1) :
    h.sum ≤ h.length := by
  induction h with
  | nil => simp
  | cons b t ih =>
      simp only [List.sum_cons, List.length_cons]
      have h1 : b ≤ 1 := hb b (List.mem_cons_self b t)
      have h2 : t.sum ≤ t.length := ih fun x hx => hb x (List.mem_cons_of_mem b hx)
      omega

/-! ## Claim theorems -/

/-- Claim C1: pushing a sample sequence of length L one sample at a time
into the accumulator with window size W = 8192 emits exactly ⌊L / W⌋
complete windows of exactly W samples each, in arrival order; their
concatenation is the input truncated to the largest multiple of W, and the
trailing L mod W samples stay in the buffer, never emitted. -/
theorem c1_windowing_completeness (input : List Int) :
    (windows 8192 input).length = input.length / 8192 ∧
    (∀ w ∈ windows 8192 input, w.length = 8192) ∧
    (windows 8192 input).flatten = input.take (8192 * (input.length / 8192)) ∧
    (accumulate 8192 input).2.length = input.length % 8192 := by
  obtain ⟨h1, h2, h3⟩ := accumulate_spec 8192 (by norm_num) input
  have hjlen := windows_join_length 8192 (by norm_num) input
  have hlen : 8192 * (windows 8192 input).length +
      (accumulate 8192 input).2.length = input.length := by
    have hc := congrArg List.length h3
    simp only [List.length_append] at hc
    omega
  have hn : (windows 8192 input).length = input.length / 8192 := by omega
  have hr : (accumulate 8192 input).2.length = input.length % 8192 := by omega
  refine ⟨hn, h1, ?_, hr⟩
  have key : ∀ (A B C : List Int), A ++ B = C → C.take A.length = A := by
    intro A B C hABC
    rw [← hABC, List.take_left]
  have htake := key _ _ _ h3
  rw [hjlen, hn] at htake
  exact htake.symm

/-- Claim C2: for every label sequence with labels in \x7b0,1\x7d, after each
observation the detection state is true exactly when the sum of the 20 most
recent entries of the zero-pre-seeded history strictly exceeds 1: the state
stays false while the rolling sum is at most 1 and flips to true exactly
when the rolling sum reaches 2. -/
theorem c2_smoother_threshold (ls : List Nat) (hls : ∀ l ∈ ls, l ≤ 1)
    (k : Nat) (hk : k ≤ ls.length) :
    (droneState (histAfter (ls.take k)) = true ↔ 2 ≤ last20Sum (ls.take k)) ∧
    (last20Sum (ls.take k) ≤ 1 → droneState (histAfter (ls.take k)) = false) := by
  have hmem : ∀ l ∈ ls.take k, l ≤ 1 := fun l hl => hls l (List.mem_of_mem_take hl)
  have hb := histAfter_mem_le (ls.take k) hmem
  have hsum : (histAfter (ls.take k)).sum ≤ 20 := by
    have := sum_le_of_le_one _ hb
    rw [histAfter_length] at this
    exact this
  have heq : detectionSum (histAfter (ls.take k)) = last20Sum (ls.take k) := by
    rw [detectionSum_eq_sum _ (by omega), histAfter_sum]
  constructor
  · rw [droneState, heq]
    simp
    omega
  · intro hle
    rw [droneState, heq]
    simp
    omega

/-- Claim C2 witness: on the sequence [1, 1] the state after both
observations is true and the rolling sum is 2. -/
theorem c2_smoother_threshold_witness :
    droneState (histAfter [1, 1]) = true := by
  have h := c2_smoother_threshold [1, 1] (by decide) 2 (by decide)
  have h2 : (2 : Nat) ≤ last20Sum ([1, 1].take 2) := by decide
  simpa using h.1.mpr h2

/-- Claim C6: the history starts as 20 zeros; every insertion on the full
history evicts exactly the oldest entry (FIFO), the size is invariantly 20,
and after observing any sequence the history is exactly the 20 most recent
entries of the zero-padded label stream. -/
theorem c6_history_invariant (ls : List Nat) :
    histInit = List.replicate 20 0 ∧
    (histAfter ls).length = 20 ∧
    histAfter ls = (List.replicate 20 0 ++ ls).drop ls.length ∧
    (∀ h l, h.length = 20 → observe h l = h.drop 1 ++ [l]) := by
  exact ⟨rfl, histAfter_length ls, histAfter_eq ls,
    fun h l hh => observe_full h l hh⟩

/-- Claim C6 witness: after observing 21 labels the history is the last 20
of the padded stream, concretely evaluated. -/
theorem c6_history_invariant_witness :
    histAfter (List.replicate 21 1) = List.replicate 20 1 ∧
    observe (List.replicate 20 0) 7 = List.replicate 19 0 ++ [7] := by
  have h := c6_history_invariant (List.replicate 21 1)
  have h1 : histAfter (List.replicate 21 1) = List.replicate 20 1 := by
    rw [h.2.2.1]
    decide
  have h2 := h.2.2.2 (List.replicate 20 0) 7 (by decide)
  exact ⟨h1, by rw [h2]; decide⟩

/-- Claim C9: for a 20-entry history of labels in \x7b0,1\x7d the u8 (mod 256)
sum equals the unbounded sum, is at most 20 and never wraps, so the u8
comparison `sum > 1` agrees with the comparison over unbounded naturals. -/
theorem c9_u8_sum_no_wrap (h : List Nat) (hlen : h.length = 20)
    (hb : ∀ x ∈ h, x ≤ 1) :
    h.sum ≤ 20 ∧ detectionSum h = h.sum ∧
    droneState h = decide (1 < h.sum) := by
  have hsum : h.sum ≤ 20 := by
    have := sum_le_of_le_one h hb
    omega
  have heq : detectionSum h = h.sum := detectionSum_eq_sum h (by omega)
  exact ⟨hsum, heq, by rw [droneState, heq]⟩

/-- Claim C9 witness: the all-ones history of length 20 sums to 20 without
wrap and yields a true state under both comparisons. -/
theorem c9_u8_sum_no_wrap_witness :
    detectionSum (List.replicate 20 1) = 20 ∧
    droneState (List.replicate 20 1) = true := by
  have h := c9_u8_sum_no_wrap (List.replicate 20 1) (by decide) (by decide)
  refine ⟨?_, ?_⟩
  · rw [h.2.1]
    decide
  · rw [h.2.2]
    decide

/-! ## Evaluation-loop lemmas -/

lemma evalStep_none (drone : Bool) (infer : List Int → Option Nat)
    (st : EvalState) (w : List Int) (h : infer w = none) :
    evalStep drone infer st w = st := by
  simp [evalStep, h]

lemma evalFold_filter (drone : Bool) (infer : List Int → Option Nat) :
    ∀ (ws : List (List Int)) (st : EvalState),
      ws.foldl (evalStep drone infer) st
        = (ws.filter fun w => (infer w).isSome).foldl (evalStep drone infer) st := by
  intro ws
  induction ws with
  | nil => intro st; rfl
  | cons w ws ih =>
      intro st
      simp only [List.foldl_cons, List.filter_cons]
      cases h : infer w with
      | none =>
          simp only [h, Option.isSome_none]
          rw [evalStep_none drone infer st w h]
          simpa using ih st
      | some p =>
          simp only [h, Option.isSome_some]
          simpa using ih (evalStep drone infer st w)

lemma windows_nil_of_short (W : Nat) (hW : 0 < W) (input : List Int)
    (hlen : input.length < W) : windows W input = [] := by
  obtain ⟨-, -, h3⟩ := accumulate_spec W hW input
  have hjlen := windows_join_length W hW input
  have hc := congrArg List.length h3
  simp only [List.length_append] at hc
  rw [hjlen] at hc
  have hcount : (windows W input).length = 0 := by
    by_contra hne
    have h1 : 1 ≤ (windows W input).length := Nat.one_le_iff_ne_zero.mpr hne
    have : W ≤ W * (windows W input).length := Nat.le_mul_of_pos_right W h1
    omega
  exact List.length_eq_zero.mp hcount

/-- Claim C5: in evaluation mode a window whose inference call fails is
skipped entirely: neither counter is incremented and the detection history
is untouched, the run over a window stream equals the run over only the
windows whose inference succeeds, and the reported accuracy at stream end
is the ratio of the `correct` and `predictions` counters. -/
theorem c5_inference_error_skipped (drone : Bool)
    (infer : List Int → Option Nat) :
    (∀ (st : EvalState) (w : List Int), infer w = none →
        evalStep drone infer st w = st) ∧
    (∀ ws : List (List Int),
        evalRun drone infer ws
          = evalRun drone infer (ws.filter fun w => (infer w).isSome)) ∧
    (∀ input : List Int,
        accuracyRatio (testRun drone infer input)
          = ((testRun drone infer input).correct,
              (testRun drone infer input).predictions)) := by
  refine ⟨fun st w h => evalStep_none drone infer st w h, fun ws => ?_, fun _ => rfl⟩
  exact evalFold_filter drone infer ws evalInit

/-- Claim C5 witness: with an inference stage that always fails, the step on
a concrete window leaves the concrete state unchanged. -/
theorem c5_inference_error_skipped_witness :
    evalStep true (fun _ => none) ⟨histInit, 3, 2⟩ [7] = ⟨histInit, 3, 2⟩ := by
  exact (c5_inference_error_skipped true (fun _ => none)).1 ⟨histInit, 3, 2⟩ [7] rfl

/-- Claim C10: when an evaluation run produces no successful prediction —
the input stream is shorter than one window of 8192 samples, or every
inference call fails — the `predictions` counter is 0 at stream end and the
final report divides correct by predictions as the unguarded ratio 0 / 0;
no check that at least one prediction was made exists. -/
theorem c10_zero_predictions (drone : Bool) (infer : List Int → Option Nat)
    (input : List Int)
    (h : input.length < 8192 ∨ ∀ w, infer w = none) :
    (testRun drone infer input).predictions = 0 ∧
    (testRun drone infer input).correct = 0 ∧
    accuracyRatio (testRun drone infer input) = (0, 0) := by
  have hrun : testRun drone infer input = evalInit := by
    rcases h with hshort | hfail
    · rw [testRun, windows_nil_of_short 8192 (by norm_num) input hshort]
      rfl
    · rw [testRun, evalRun, evalFold_filter]
      have hfilter : (windows 8192 input).filter (fun w => (infer w).isSome) = [] := by
        apply List.filter_eq_nil_iff.mpr
        intro w _
        simp [hfail w]
      rw [hfilter]
      rfl
  rw [hrun]
  exact ⟨rfl, rfl, rfl⟩

/-- Claim C10 witness: a one-sample stream yields zero predictions and the
0 / 0 accuracy ratio. -/
theorem c10_zero_predictions_witness :
    (testRun true (fun _ => some 1) [5]).predictions = 0 ∧
    (testRun true (fun _ => some 1) [5]).correct = 0 ∧
    accuracyRatio (testRun true (fun _ => some 1) [5]) = (0, 0) := by
  exact c10_zero_predictions true (fun _ => some 1) [5] (Or.inl (by decide))

/-! ## Capture-loop lemmas -/

lemma readLoop_bound (env : DeviceEnv) (s : Nat)
    (hs : ∀ j, s ≤ j → env.flag j = false) :
    ∀ (fuel i : Nat) (acc : List Int) (r rc : Nat),
      (readLoop env fuel i acc r rc).reads ≤ r + (s - i) ∧
      (s - i < fuel →
        (readLoop env fuel i acc r rc).exitKind ≠ LoopExit.outOfFuel) := by
  intro fuel
  induction fuel with
  | zero =>
      intro i acc r rc
      exact ⟨Nat.le_add_right r (s - i), fun h => absurd h (by omega)⟩
  | succ fuel ih =>
      intro i acc r rc
      by_cases hf : env.flag i
      · have hi : i < s := by
          by_contra hge
          rw [hs i (by omega)] at hf
          simp at hf
        have hgap : r + 1 + (s - (i + 1)) = r + (s - i) := by omega
        cases hr : env.reads i with
        | ok data =>
            have hred : readLoop env (fuel + 1) i acc r rc
                = readLoop env fuel (i + 1) (acc ++ data) (r + 1) rc := by
              simp [readLoop, hf, hr]
            rw [hred]
            obtain ⟨b1, b2⟩ := ih (i + 1) (acc ++ data) (r + 1) rc
            exact ⟨by omega, fun h => b2 (by omega)⟩
        | err e =>
            by_cases h11 : e.errno = 11
            · have hred : readLoop env (fuel + 1) i acc r rc
                  = readLoop env fuel (i + 1) acc (r + 1) rc := by
                simp [readLoop, hf, hr, h11]
              rw [hred]
              obtain ⟨b1, b2⟩ := ih (i + 1) acc (r + 1) rc
              exact ⟨by omega, fun h => b2 (by omega)⟩
            · cases hrec : env.recover i e with
              | ok u =>
                  have hred : readLoop env (fuel + 1) i acc r rc
                      = readLoop env fuel (i + 1) acc (r + 1) (rc + 1) := by
                    simp [readLoop, hf, hr, h11, hrec]
                  rw [hred]
                  obtain ⟨b1, b2⟩ := ih (i + 1) acc (r + 1) (rc + 1)
                  exact ⟨by omega, fun h => b2 (by omega)⟩
              | error e2 =>
                  have hred : readLoop env (fuel + 1) i acc r rc
                      = ⟨LoopExit.fatal e2, acc, r + 1, rc + 1⟩ := by
                    simp [readLoop, hf, hr, h11, hrec]
                  rw [hred]
                  exact ⟨show r + 1 ≤ r + (s - i) by omega, fun _ => by simp⟩
      · have hred : readLoop env (fuel + 1) i acc r rc
            = ⟨LoopExit.stopped, acc, r, rc⟩ := by
          simp [readLoop, hf]
        rw [hred]
        exact ⟨show r ≤ r + (s - i) from Nat.le_add_right r _, fun _ => by simp⟩

/-- Claim C7: the capture loop samples the stop flag exactly once, at the
top of each iteration, and issues one blocking read per iteration that
passed the check.  Hence if the flag is unset from check index `s` onward —
the flag store having happened during iteration `s - 1`, after its check —
the loop issues at most `s` reads in total, so at most the one read already
in flight follows the store, and given enough fuel the loop exits (either
by observing the flag or through a fatal error) rather than running on. -/
theorem c7_cancellation_bound (env : DeviceEnv) (s fuel : Nat)
    (hs : ∀ j, s ≤ j → env.flag j = false) :
    (readLoop env fuel 0 [] 0 0).reads ≤ s ∧
    (s < fuel → (readLoop env fuel 0 [] 0 0).exitKind ≠ LoopExit.outOfFuel) := by
  obtain ⟨b1, b2⟩ := readLoop_bound env s hs fuel 0 [] 0 0
  exact ⟨by simpa using b1, fun h => b2 (by omega)⟩

/-- Claim C7 witness: with the stop flag set once three iterations have
started, a ten-iteration simulation performs at most three reads and does
not run out of fuel. -/
theorem c7_cancellation_bound_witness :
    (readLoop stopAfter3Env 10 0 [] 0 0).reads ≤ 3 ∧
    (readLoop stopAfter3Env 10 0 [] 0 0).exitKind ≠ LoopExit.outOfFuel := by
  have h := c7_cancellation_bound stopAfter3Env 3 10 (by
    intro j hj
    simp only [stopAfter3Env, decide_eq_false_iff_not]
    omega)
  exact ⟨h.1, h.2 (by omega)⟩

/-- Claim C4 (amended): in the capture read loop a read error with errno 11
(EAGAIN) is treated as a non-error and the read is immediately retried
without invoking recovery; any other read error — including an interrupted
call, EINTR — causes the session to invoke the recovery routine and
continue the loop without propagating the error; a failure of the recovery
routine itself terminates the loop by propagating that error. -/
theorem c4_error_handling (env : DeviceEnv) (fuel i : Nat) (acc : List Int)
    (r rc : Nat) (e : AlsaError)
    (hflag : env.flag i = true) (herr : env.reads i = ReadOutcome.err e) :
    (e.errno = 11 →
      readLoop env (fuel + 1) i acc r rc
        = readLoop env fuel (i + 1) acc (r + 1) rc) ∧
    (e.errno ≠ 11 → env.recover i e = Except.ok () →
      readLoop env (fuel + 1) i acc r rc
        = readLoop env fuel (i + 1) acc (r + 1) (rc + 1)) ∧
    (∀ e2, e.errno ≠ 11 → env.recover i e = Except.error e2 →
      readLoop env (fuel + 1) i acc r rc
        = ⟨LoopExit.fatal e2, acc, r + 1, rc + 1⟩) := by
  refine ⟨fun h11 => ?_, fun h11 hrec => ?_, fun e2 h11 hrec => ?_⟩
  · simp [readLoop, hflag, herr, h11]
  · simp [readLoop, hflag, herr, h11, hrec]
  · simp [readLoop, hflag, herr, h11, hrec]

/-- Claim C4 counterexample: an interrupted-call error (EINTR, errno 4) is
not retried as a non-error: the loop invokes the recovery routine on it,
and when recovery fails the loop terminates fatally instead of retrying. -/
theorem c4_counterexample :
    EINTR ≠ 11 ∧
    (readLoop eintrEnv 1 0 [] 0 0).recovers = 1 ∧
    (readLoop eintrEnv 1 0 [] 0 0).exitKind = LoopExit.fatal ⟨5⟩ := by
  decide

/-- Claim C4 witness: on an errno-11 error the loop continues with the next
read, without touching the recovery counter. -/
theorem c4_error_handling_witness :
    readLoop eagainEnv 1 0 [] 0 0 = readLoop eagainEnv 0 1 [] 1 0 := by
  exact (c4_error_handling eagainEnv 0 0 [] 0 0 ⟨11⟩ rfl rfl).1 rfl

/-- Claim C3 (amended): a capture configuration whose sample format is
outside the fixed-point 32-bit family is always constructed successfully;
its `read` fails with the format error after the device has been opened and
the stream started, but before the output file is created and before any
blocking read is issued — never mid-stream. -/
theorem c3_format_rejection (dev : CaptureDevice) (env : DeviceEnv)
    (fuel : Nat) (hfmt : dev.format.supported = false)
    (hinit : env.initResult = Except.ok ()) :
    CaptureDevice.new dev.device_name dev.channels dev.samplerate dev.format
      = dev ∧
    (dev.read env fuel).1 = Except.error ⟨0⟩ ∧
    (dev.read env fuel).2 = none ∧
    dev.readTrace env fuel
      = [Event.deviceOpened, Event.streamStarted, Event.formatRejected] := by
  refine ⟨rfl, ?_, ?_, ?_⟩
  · simp [CaptureDevice.read, hinit, hfmt]
  · simp [CaptureDevice.read, hinit, hfmt]
  · simp [CaptureDevice.readTrace, hinit, hfmt]

/-- Claim C3 counterexample: for the concrete 16-bit configuration the
first observable event of `read` is the device being opened — the format
rejection happens only afterwards, and construction never rejects — so the
session does not fail "before the device is opened". -/
theorem c3_counterexample :
    (badFormatDevice.readTrace stoppedEnv 1).head? = some Event.deviceOpened ∧
    (badFormatDevice.readTrace stoppedEnv 1).head? ≠ some Event.formatRejected ∧
    Event.formatRejected ∈ badFormatDevice.readTrace stoppedEnv 1 := by
  decide

/-- Claim C3 witness: the concrete 16-bit configuration is rejected with
the format error, after the device opened and before any read. -/
theorem c3_format_rejection_witness :
    (badFormatDevice.read stoppedEnv 1).1 = Except.error ⟨0⟩ ∧
    badFormatDevice.readTrace stoppedEnv 1
      = [Event.deviceOpened, Event.streamStarted, Event.formatRejected] := by
  have h := c3_format_rejection badFormatDevice stoppedEnv 1 rfl rfl
  exact ⟨h.2.1, h.2.2.2⟩

/-- Claim C8: whenever `read` accepts the format and the device
initializes, it produces an output file whose WAV header carries the
session's channel count (the `u16` cast is lossless below 2^16, which holds
for every representable session and in particular for the program's
2-channel session), the session's sample rate, 32 bits per sample and
integer sample format — on every exit path: normal stop, cancellation, or
a fatal device error. -/
theorem c8_wav_header (dev : CaptureDevice) (env : DeviceEnv) (fuel : Nat)
    (hch : dev.channels < 65536) (hfmt : dev.format.supported = true)
    (hinit : env.initResult = Except.ok ()) :
    ∃ f : WavFile, (dev.read env fuel).2 = some f ∧
      f.spec.channels = dev.channels ∧
      f.spec.sample_rate = dev.samplerate ∧
      f.spec.bits_per_sample = 32 ∧
      f.spec.sample_format = SampleFormat.int := by
  have hmod : dev.channels % 65536 = dev.channels := Nat.mod_eq_of_lt hch
  refine ⟨⟨wavSpecOf dev, (readLoop env fuel 0 [] 0 0).written⟩, ?_,
    hmod, rfl, rfl, rfl⟩
  simp only [CaptureDevice.read, hinit, hfmt, if_true]
  cases hk : (readLoop env fuel 0 [] 0 0).exitKind <;> simp [hk]

/-- Claim C8 witness: the program's 2-channel 48 kHz session, stopped at
the first flag check, produces a file with header (2, 48000, 32, int). -/
theorem c8_wav_header_witness :
    ∃ f : WavFile, (recordDevice.read stoppedEnv 1).2 = some f ∧
      f.spec.channels = 2 ∧
      f.spec.sample_rate = 48000 ∧
      f.spec.bits_per_sample = 32 ∧
      f.spec.sample_format = SampleFormat.int := by
  exact c8_wav_header recordDevice stoppedEnv 1 (by decide) rfl rfl

end Detection
